import Mathlib

/-!
Shallow embedding of the loyalty-program core (customer ledger, points
accrual/redemption, purchase history, search) of `src/app.py`.

Modelling conventions:
* A pandas `DataFrame` of customer rows is a `List Customer` in row order;
  the history frame is a `List Txn`.
* Python `float` amounts are modelled as exact rationals (`ℚ`).
* `int(x)` on a float is truncation toward zero (`pyInt`); Python's float
  floor-division `x // 10` composed with `int` is `⌊x / 10⌋`.
* `str.strip()` is `pyStrip` (ASCII whitespace, which covers every string
  the application produces).
* `datetime.now().strftime("%Y-%m-%d")` is an environment input, passed to
  `recordPurchase` as the `today` argument; `uuid.uuid4().hex` likewise as
  the `uuidHex` argument.
-/

namespace Loyalty

/-- One row of the customers table (`CUSTOMERS_COLS` in `app.py`), after
`load_customers` has coerced the numeric columns to integers and the id,
name, mobile and date columns to strings. -/
structure Customer where
  customerId : String
  name : String
  mobile : String
  totalPurchase : Int
  points : Int
  redeemedPoints : Int
  purchaseDate : String
deriving DecidableEq, Repr

/-- One row of the purchase-history table (`HISTORY_COLS` in `app.py`). -/
structure Txn where
  txnId : String
  customerId : String
  name : String
  mobile : String
  purchaseDate : String
  amount : ℚ
  pointsEarned : Int
deriving DecidableEq, Repr

/-- The two persisted datasets (`customers.csv` and `purchase_history.csv`). -/
structure State where
  customers : List Customer
  history : List Txn
deriving DecidableEq, Repr

/-- Python's `str.strip()` restricted to ASCII whitespace: drop whitespace
from both ends. -/
def pyStrip (s : String) : String :=
  String.mk (((s.toList.dropWhile Char.isWhitespace).reverse.dropWhile
    Char.isWhitespace).reverse)

/-- Python's `int(·)` on a float value, modelled exactly on ℚ: truncation
toward zero. -/
def pyInt (q : ℚ) : Int :=
  if q < 0 then ⌈q⌉ else ⌊q⌋

/-- `points_from_amount` (`app.py` line 83): `int(amount // 10)`.  Python's
float floor-division gives `⌊amount / 10⌋` (already an integer, so the
outer `int` is the identity). -/
def points_from_amount (amount : ℚ) : Int :=
  ⌊amount / 10⌋

/-- Numeric value of a digit list, most significant first. -/
def digitsToNat (ds : List Char) : Nat :=
  ds.foldl (fun n c => 10 * n + (c.toNat - 48)) 0

/-- The regular expression `^CUST(\d{4,})$` of `next_customer_id`
(`app.py` line 77): `some` of the numeric suffix when the id is `CUST`
followed by at least four digits, `none` otherwise. -/
def custNum (cid : String) : Option Nat :=
  let cs := cid.toList
  if cs.take 4 = ['C', 'U', 'S', 'T'] ∧ 4 ≤ (cs.drop 4).length ∧
      (cs.drop 4).all Char.isDigit then
    some (digitsToNat (cs.drop 4))
  else
    none

/-- Zero-pad a digit string on the left to width `w`. -/
def padZeros (w : Nat) (ds : List Char) : List Char :=
  List.replicate (w - ds.length) '0' ++ ds

/-- The f-string `f"CUST{n:04d}"` (`app.py` line 81): `CUST` followed by
the decimal digits of `n`, zero-padded on the left to at least four
digits. -/
def formatCustId (n : Nat) : String :=
  "CUST" ++ String.mk (padZeros 4 (Nat.toDigits 10 n))

/-- `next_customer_id` (`app.py` lines 71–81). -/
def next_customer_id (df : List Customer) : String :=
  if df = [] then "CUST0001"
  else
    match df.filterMap (fun c => custNum c.customerId) with
    | [] => formatCustId 1
    | n :: ns => formatCustId (ns.foldl Nat.max n + 1)

/-! ### The pandas string-matching used by both search screens

`df["Mobile"].astype(str).str.contains(query, case=False, na=False)`
(`app.py` lines 188–191 and 217–220) performs a *regular-expression*
search (`re.search` with `re.IGNORECASE`; `regex=True` is the pandas
default), not a literal substring test.  We model it for patterns built
from literal characters and the metacharacter `.` (which matches any
character); these are the only regex constructs this development
exercises, and every pattern free of metacharacters falls in this
fragment with its Python semantics. -/

/-- Does the pattern match a prefix of the string?  A pattern character
matches literally up to ASCII case, except `.` which matches any
character. -/
def patMatchAt : List Char → List Char → Bool
  | [], _ => true
  | _ :: _, [] => false
  | p :: ps, c :: cs => (p == '.' || p.toLower == c.toLower) && patMatchAt ps cs

/-- Does the pattern match at some position of the string (Python
`re.search`)? -/
def patSearch (pat : List Char) : List Char → Bool
  | [] => patMatchAt pat []
  | c :: cs => patMatchAt pat (c :: cs) || patSearch pat cs

/-- Model of `Series.str.contains(pat, case=False, na=False)` on one cell:
case-insensitive regex search of `pat` anywhere in `hay`. -/
def pandasContains (hay pat : String) : Bool :=
  patSearch pat.toList hay.toList

/-- Does the needle occur at the start of the string, comparing characters
up to ASCII case? -/
def substrAt : List Char → List Char → Bool
  | [], _ => true
  | _ :: _, [] => false
  | n :: ns, c :: cs => (n.toLower == c.toLower) && substrAt ns cs

/-- Case-insensitive literal substring containment of `needle` in `hay`. -/
def substrCI (needle : List Char) : List Char → Bool
  | [] => substrAt needle []
  | c :: cs => substrAt needle (c :: cs) || substrCI needle cs

/-- Case-insensitive substring containment on strings, following the
specification's words (used to compare the code's regex behaviour with
the claimed substring behaviour). -/
def strContainsCI (hay needle : String) : Bool :=
  substrCI needle.toList hay.toList

/-! ### Customer-table operations -/

/-- The in-place update or first-match lookup of the purchase form
(`app.py` lines 100–107): find the first row whose `Mobile` equals the
submitted mobile and update it; `none` when no row matches.
Row update, line by line:
* `df.at[idx, "Name"] = name or df.at[idx, "Name"]` — the empty string is
  falsy in Python, so a blank submitted name keeps the old one;
* `df.at[idx, "Total_Purchase"] = int(df.at[idx, "Total_Purchase"] + amount)`;
* `df.at[idx, "Points"] = int(df.at[idx, "Points"] + points_from_amount(amount))`
  (the outer `int` is the identity on the integer sum);
* `df.at[idx, "Purchase_Date"] = purchase_date`. -/
def upsertPurchase (name mobile : String) (amount : ℚ) (date : String) :
    List Customer → Option (List Customer × String)
  | [] => none
  | c :: t =>
    if c.mobile = mobile then
      some ({ c with
        name := if name = "" then c.name else name,
        totalPurchase := pyInt ((c.totalPurchase : ℚ) + amount),
        points := c.points + points_from_amount amount,
        purchaseDate := date } :: t, c.customerId)
    else
      match upsertPurchase name mobile amount date t with
      | some (t', cid) => some (c :: t', cid)
      | none => none

/-- `uuid.uuid4().hex[:12]` (`app.py` line 126), with the 32-character
random hex string supplied by the environment. -/
def mkTxnId (uuidHex : String) : String :=
  String.mk (uuidHex.toList.take 12)

/-- The purchase-date defaulting of `app.py` lines 95–97: the stripped
submitted date, or today's date (an environment input, already formatted
`YYYY-MM-DD`) when the submitted date is blank. -/
def effectiveDate (rawDate today : String) : String :=
  if pyStrip rawDate = "" then today else pyStrip rawDate

/-- The POST branch of the `index` route (`app.py` lines 90–134):
upsert-by-mobile into the customers table, then append one transaction
record to the history table. -/
def recordPurchase (rawName rawMobile : String) (amount : ℚ)
    (rawDate today uuidHex : String) (s : State) : State :=
  let name := pyStrip rawName
  let mobile := pyStrip rawMobile
  let purchase_date := effectiveDate rawDate today
  let r : List Customer × String :=
    match upsertPurchase name mobile amount purchase_date s.customers with
    | some r => r
    | none =>
      (s.customers ++ [⟨next_customer_id s.customers, name, mobile,
        pyInt amount, points_from_amount amount, 0, purchase_date⟩],
       next_customer_id s.customers)
  { customers := r.1,
    history := s.history ++ [⟨mkTxnId uuidHex, r.2, name, mobile,
      purchase_date, amount, points_from_amount amount⟩] }

/-- The redeem action of the `redeem` route (`app.py` lines 193–204):
the first row whose `Customer_ID` matches is updated when
`available >= 100 and 100 <= redeem_points <= available`; otherwise
nothing changes. -/
def redeemList (cid : String) (rp : Int) : List Customer → List Customer
  | [] => []
  | c :: t =>
    if c.customerId = cid then
      (if 100 ≤ c.points ∧ 100 ≤ rp ∧ rp ≤ c.points then
        { c with points := c.points - rp,
                 redeemedPoints := c.redeemedPoints + rp }
      else c) :: t
    else c :: redeemList cid rp t

/-- The field assignments of `update_customer` (`app.py` lines 159–163):
on the first row whose `Customer_ID` matches, overwrite the non-blank
submitted fields. -/
def setContact (cid new_name new_mobile : String) : List Customer → List Customer
  | [] => []
  | c :: t =>
    if c.customerId = cid then
      { c with name := if new_name = "" then c.name else new_name,
               mobile := if new_mobile = "" then c.mobile else new_mobile } :: t
    else c :: setContact cid new_name new_mobile t

/-- `update_customer` (`app.py` lines 141–166): no-op when the id is
unknown, no-op when the non-blank new mobile already belongs to a
different customer, field update otherwise. -/
def update_customer (cid rawName rawMobile : String) (df : List Customer) :
    List Customer :=
  let new_name := pyStrip rawName
  let new_mobile := pyStrip rawMobile
  if ¬ df.any (fun c => c.customerId == cid) then df
  else if new_mobile ≠ "" ∧
      df.any (fun c => c.mobile == new_mobile && c.customerId != cid) then df
  else setContact cid new_name new_mobile df

/-- `delete_customer` (`app.py` lines 168–176): drop every row whose
`Customer_ID` equals the submitted id (a no-op when none does). -/
def delete_customer (cid : String) (df : List Customer) : List Customer :=
  if df.any (fun c => c.customerId == cid) then
    df.filter (fun c => c.customerId != cid)
  else df

/-- The search action of the `redeem` route (`app.py` lines 185–192):
a blank (stripped) query returns no results, otherwise the rows whose
`Mobile` or `Customer_ID` matches the query, in row order. -/
def searchCustomers (rawQuery : String) (df : List Customer) : List Customer :=
  let query := pyStrip rawQuery
  if query = "" then []
  else df.filter (fun c =>
    pandasContains c.mobile query || pandasContains c.customerId query)

/-- The customer search in the words of the specification and of claim C8:
case-insensitive *substring* match against Mobile or Customer_ID, empty
trimmed query yielding no results, storage order preserved. -/
def searchCustomersSpec (rawQuery : String) (df : List Customer) : List Customer :=
  let query := pyStrip rawQuery
  if query = "" then []
  else df.filter (fun c =>
    strContainsCI c.mobile query || strContainsCI c.customerId query)

/-! ### The history screen

`pd.to_datetime(·, errors="coerce")` (`app.py` line 223) is modelled on
strings of the strict shape `YYYY-MM-DD` — the only shape the
application's own date input and `strftime("%Y-%m-%d")` default ever
write (the route's own comment: `Sort by date (YYYY-MM-DD expected)`).
On that shape the model reproduces pandas exactly: the date must be
calendar-valid (month 1–12, day within the month's length, February 29
only in leap years) and must lie in the range of nanosecond
`pd.Timestamp`s, whose date-only values run from `1677-09-22` to
`2262-04-11`; everything else coerces to the missing value `NaT`.
Strings of any other shape are outside the modelled fragment and map to
`NaT` here (pandas would parse some further human-readable formats, but
the application never produces them and no claim exercises them).  A
parsed date is encoded as `year * 10000 + month * 100 + day`, which
orders dates chronologically. -/

/-- Length of month `m` in year `y` (Gregorian, as pandas validates). -/
def daysInMonth (y m : Nat) : Nat :=
  if m = 2 then
    if y % 4 = 0 ∧ (y % 100 ≠ 0 ∨ y % 400 = 0) then 29 else 28
  else if m = 4 ∨ m = 6 ∨ m = 9 ∨ m = 11 then 30
  else 31

/-- Parse a strict `YYYY-MM-DD` string to its encoded date, validating the
calendar and the `pd.Timestamp` range; `none` models `NaT`. -/
def parseISODate (s : String) : Option Nat :=
  match s.toList with
  | [y1, y2, y3, y4, '-', m1, m2, '-', d1, d2] =>
    if ([y1, y2, y3, y4, m1, m2, d1, d2].all Char.isDigit) ∧
        1 ≤ digitsToNat [m1, m2] ∧ digitsToNat [m1, m2] ≤ 12 ∧
        1 ≤ digitsToNat [d1, d2] ∧
        digitsToNat [d1, d2] ≤
          daysInMonth (digitsToNat [y1, y2, y3, y4]) (digitsToNat [m1, m2]) ∧
        16770922 ≤ digitsToNat [y1, y2, y3, y4] * 10000 +
          digitsToNat [m1, m2] * 100 + digitsToNat [d1, d2] ∧
        digitsToNat [y1, y2, y3, y4] * 10000 +
          digitsToNat [m1, m2] * 100 + digitsToNat [d1, d2] ≤ 22620411 then
      some (digitsToNat [y1, y2, y3, y4] * 10000 +
        digitsToNat [m1, m2] * 100 + digitsToNat [d1, d2])
    else none
  | _ => none

/-- `strftime("%Y-%m-%d")` on an encoded date. -/
def formatISODate (k : Nat) : String :=
  String.mk (padZeros 4 (Nat.toDigits 10 (k / 10000)) ++
    '-' :: padZeros 2 (Nat.toDigits 10 (k / 100 % 100)) ++
    '-' :: padZeros 2 (Nat.toDigits 10 (k % 100)))

/-- The `.dt.strftime("%Y-%m-%d")` rewrite of the sorted result column
(`app.py` line 225): a parsed date is re-rendered in canonical form; a
missing (`NaT`) entry stays a non-date missing value, rendered here by
the marker string `NaT`. -/
def reformatDate (s : String) : String :=
  match parseISODate s with
  | some k => formatISODate k
  | none => "NaT"

/-- The sort key of a history row. -/
def dateKey (t : Txn) : Option Nat :=
  parseISODate t.purchaseDate

/-- May a row with key `a` be placed at or before a row with key `b` in
`sort_values("Purchase_Date", ascending=False)`?  Dates sort descending
and missing dates (`none`, pandas `NaT`) sort after every date
(`na_position="last"`, the pandas default). -/
def keyBefore : Option Nat → Option Nat → Bool
  | some x, some y => decide (y ≤ x)
  | some _, none => true
  | none, some _ => false
  | none, none => true

/-- Insert one row into a list already sorted by `keyBefore`. -/
def insertTxn (t : Txn) : List Txn → List Txn
  | [] => [t]
  | u :: us =>
    if keyBefore (dateKey t) (dateKey u) then t :: u :: us
    else u :: insertTxn t us

/-- Model of `results.sort_values("Purchase_Date", ascending=False)`
(`app.py` line 224) by insertion sort: the output is a permutation of the
input ordered by `keyBefore`.  (pandas' default quicksort fixes no
particular order between rows with equal or missing dates, and no claim
depends on one.) -/
def sortTxns : List Txn → List Txn
  | [] => []
  | t :: ts => insertTxn t (sortTxns ts)

/-- The POST branch of the `history` route (`app.py` lines 214–233):
filter by the query, sort by date descending, re-render the date column,
and derive the header from the first row when there is one. -/
def searchHistory (rawQuery : String) (hx : List Txn) :
    List Txn × Option (String × String × String) :=
  let query := pyStrip rawQuery
  if query = "" then ([], none)
  else
    let results := hx.filter (fun t =>
      pandasContains t.mobile query || pandasContains t.customerId query)
    let sorted := (sortTxns results).map
      (fun t => { t with purchaseDate := reformatDate t.purchaseDate })
    match sorted with
    | [] => ([], none)
    | f :: _ => (sorted, some (f.customerId, f.name, f.mobile))

/-! ### Operation sequences over the whole store

Each HTTP POST handled by the application is one of the following
operations, applied to the full persisted state (each route loads the
store, mutates it and saves it back). -/

/-- One user-visible mutating operation. -/
inductive Op where
  | purchase (rawName rawMobile : String) (amount : ℚ)
      (rawDate today uuidHex : String)
  | redeem (cid : String) (rp : Int)
  | update (cid rawName rawMobile : String)
  | delete (cid : String)

/-- Apply one operation to the store. -/
def applyOp : Op → State → State
  | .purchase rawName rawMobile amount rawDate today uuidHex, s =>
    recordPurchase rawName rawMobile amount rawDate today uuidHex s
  | .redeem cid rp, s => { s with customers := redeemList cid rp s.customers }
  | .update cid rawName rawMobile, s =>
    { s with customers := update_customer cid rawName rawMobile s.customers }
  | .delete cid, s => { s with customers := delete_customer cid s.customers }

/-- Apply a sequence of operations, oldest first. -/
def run (ops : List Op) (s : State) : State :=
  ops.foldl (fun s op => applyOp op s) s

/-- The purchase amount of an operation is non-negative (claim C3's
hypothesis on `recordPurchase` calls); other operations carry no
amount. -/
def amountOk : Op → Prop
  | .purchase _ _ amount _ _ _ => 0 ≤ amount
  | _ => True

/-! ## Helper lemmas -/

theorem foldl_max_mem (n : Nat) (l : List Nat) :
    l.foldl Nat.max n ∈ n :: l := by
  induction l generalizing n with
  | nil => simp
  | cons a l ih =>
    show List.foldl Nat.max (Nat.max n a) l ∈ n :: a :: l
    have h := ih (Nat.max n a)
    rcases List.mem_cons.mp h with h | h
    · rw [h]
      show n ⊔ a ∈ n :: a :: l
      rcases max_choice n a with h' | h' <;> rw [h'] <;> simp
    · simp [h]

theorem le_foldl_max (n : Nat) (l : List Nat) :
    ∀ x ∈ n :: l, x ≤ l.foldl Nat.max n := by
  induction l generalizing n with
  | nil => simp
  | cons a l ih =>
    intro x hx
    have hfold : (a :: l).foldl Nat.max n = l.foldl Nat.max (Nat.max n a) := rfl
    have hn : Nat.max n a ≤ l.foldl Nat.max (Nat.max n a) :=
      ih (Nat.max n a) (Nat.max n a) (by simp)
    rw [hfold]
    rcases List.mem_cons.mp hx with rfl | hx
    · exact le_trans (le_max_left x a) hn
    · rcases List.mem_cons.mp hx with rfl | hx
      · exact le_trans (le_max_right n x) hn
      · exact ih (Nat.max n a) x (by simp [hx])

theorem foldl_max_eq_of_mem_of_le {n m : Nat} {l : List Nat}
    (hm : m ∈ n :: l) (hle : ∀ x ∈ n :: l, x ≤ m) :
    l.foldl Nat.max n = m :=
  le_antisymm (hle _ (foldl_max_mem n l)) (le_foldl_max n l m hm)

/-! ## C4 -/

/-- C4: `nextCustomerId` returns `CUST0001` on an empty customer set;
otherwise, whenever `m` is the greatest numeric suffix among the existing
`Customer_ID`s that match `CUST` followed by four or more digits (ids of
any other format being ignored by the `filterMap`), it returns `CUST`
followed by `m + 1` zero-padded to at least four digits. -/
theorem C4_next_customer_id_spec :
    (next_customer_id [] = "CUST0001") ∧
    (∀ (df : List Customer) (m : Nat),
      df ≠ [] →
      m ∈ df.filterMap (fun c => custNum c.customerId) →
      (∀ x ∈ df.filterMap (fun c => custNum c.customerId), x ≤ m) →
      next_customer_id df = formatCustId (m + 1)) := by
  constructor
  · rfl
  · intro df m hdf hm hle
    unfold next_customer_id
    rw [if_neg hdf]
    cases hfm : df.filterMap (fun c => custNum c.customerId) with
    | nil => rw [hfm] at hm; cases hm
    | cons n ns =>
      rw [hfm] at hm hle
      simp only []
      rw [foldl_max_eq_of_mem_of_le hm hle]

/-- Witness for C4 at a concrete customer set: the ids `CUST0001` and
`CUST0003` yield `CUST0004`, with a malformed id `BOB` ignored. -/
theorem C4_next_customer_id_spec_witness :
    next_customer_id
      [⟨"CUST0001", "Ann", "0501", 0, 0, 0, ""⟩,
       ⟨"BOB", "X", "5", 0, 0, 0, ""⟩,
       ⟨"CUST0003", "Bob", "777", 150, 150, 0, ""⟩] = "CUST0004" := by
  rw [C4_next_customer_id_spec.2 _ 3 (by decide) (by decide) (by decide)]
  decide

/-! ## C2 -/

/-- The redemption guard of `app.py` line 200. -/
def canRedeem (c : Customer) (rp : Int) : Prop :=
  100 ≤ c.points ∧ 100 ≤ rp ∧ rp ≤ c.points

instance (c : Customer) (rp : Int) : Decidable (canRedeem c rp) := by
  unfold canRedeem; infer_instance

/-- The successful redemption row update of `app.py` lines 201–202. -/
def redeemedCustomer (c : Customer) (rp : Int) : Customer :=
  { c with points := c.points - rp, redeemedPoints := c.redeemedPoints + rp }

theorem redeemList_absent (cid : String) (rp : Int) (df : List Customer)
    (h : ∀ c ∈ df, c.customerId ≠ cid) : redeemList cid rp df = df := by
  induction df with
  | nil => rfl
  | cons c t ih =>
    have hc : c.customerId ≠ cid := h c (by simp)
    simp only [redeemList, if_neg hc]
    rw [ih (fun x hx => h x (by simp [hx]))]

theorem redeemList_decomp (cid : String) (rp : Int)
    (pre : List Customer) (c : Customer) (post : List Customer)
    (hpre : ∀ x ∈ pre, x.customerId ≠ cid) (hc : c.customerId = cid) :
    redeemList cid rp (pre ++ c :: post) =
      pre ++ (if canRedeem c rp then redeemedCustomer c rp else c) :: post := by
  induction pre with
  | nil =>
    simp only [List.nil_append, redeemList, if_pos hc, canRedeem, redeemedCustomer]
  | cons p t ih =>
    have hp : p.customerId ≠ cid := hpre p (by simp)
    simp only [List.cons_append, redeemList, if_neg hp, List.append_eq]
    rw [ih (fun x hx => hpre x (by simp [hx]))]

/-- C2: `redeemPoints` leaves the customer set unchanged when no customer
has the requested id; when the (first) customer with the requested id is
found, the set changes exactly when its Points are at least 100 and the
requested amount lies between 100 and the available Points, in which case
only that customer changes, its Points dropping by the requested amount
and its Redeemed_Points rising by the same amount; in every failing case
the set is completely unchanged. -/
theorem C2_redeemPoints_spec :
    (∀ (cid : String) (rp : Int) (df : List Customer),
      (∀ c ∈ df, c.customerId ≠ cid) → redeemList cid rp df = df) ∧
    (∀ (cid : String) (rp : Int) (pre : List Customer) (c : Customer)
      (post : List Customer),
      (∀ x ∈ pre, x.customerId ≠ cid) → c.customerId = cid →
      ((canRedeem c rp →
          redeemList cid rp (pre ++ c :: post) =
            pre ++ redeemedCustomer c rp :: post ∧
          redeemList cid rp (pre ++ c :: post) ≠ pre ++ c :: post) ∧
       (¬ canRedeem c rp →
          redeemList cid rp (pre ++ c :: post) = pre ++ c :: post))) := by
  refine ⟨redeemList_absent, ?_⟩
  intro cid rp pre c post hpre hc
  have hd := redeemList_decomp cid rp pre c post hpre hc
  constructor
  · intro hcan
    rw [hd, if_pos hcan]
    refine ⟨rfl, fun heq => ?_⟩
    have h2 : redeemedCustomer c rp :: post = c :: post :=
      List.append_cancel_left heq
    have h3 : redeemedCustomer c rp = c := (List.cons.injEq _ _ _ _ ▸ h2).1
    have h4 : c.points - rp = c.points := congrArg Customer.points h3
    have : (100 : Int) ≤ rp := hcan.2.1
    omega
  · intro hcan
    rw [hd, if_neg hcan]

/-- Witness for C2 at `available = 150`: requesting 99 fails, requesting
150 succeeds leaving Points 0 and Redeemed_Points 150, requesting 151
fails. -/
theorem C2_redeemPoints_spec_witness :
    redeemList "CUST0003" 99
        [⟨"CUST0003", "Bob", "777", 150, 150, 0, ""⟩] =
      [⟨"CUST0003", "Bob", "777", 150, 150, 0, ""⟩] ∧
    redeemList "CUST0003" 150
        [⟨"CUST0003", "Bob", "777", 150, 150, 0, ""⟩] =
      [⟨"CUST0003", "Bob", "777", 150, 0, 150, ""⟩] ∧
    redeemList "CUST0003" 151
        [⟨"CUST0003", "Bob", "777", 150, 150, 0, ""⟩] =
      [⟨"CUST0003", "Bob", "777", 150, 150, 0, ""⟩] := by
  refine ⟨?_, ?_, ?_⟩
  · have h := (C2_redeemPoints_spec.2 "CUST0003" 99 []
      ⟨"CUST0003", "Bob", "777", 150, 150, 0, ""⟩ [] (by simp) rfl).2
      (by decide)
    simpa using h
  · have h := (C2_redeemPoints_spec.2 "CUST0003" 150 []
      ⟨"CUST0003", "Bob", "777", 150, 150, 0, ""⟩ [] (by simp) rfl).1
      (by decide)
    simpa [redeemedCustomer] using h.1
  · have h := (C2_redeemPoints_spec.2 "CUST0003" 151 []
      ⟨"CUST0003", "Bob", "777", 150, 150, 0, ""⟩ [] (by simp) rfl).2
      (by decide)
    simpa using h

/-! ## C5 -/

/-- The row produced by the field assignments of `update_customer`:
non-blank submitted fields overwrite, blank ones are kept. -/
def contactUpdated (c : Customer) (new_name new_mobile : String) : Customer :=
  { c with name := if new_name = "" then c.name else new_name,
           mobile := if new_mobile = "" then c.mobile else new_mobile }

theorem setContact_decomp (cid new_name new_mobile : String)
    (pre : List Customer) (c : Customer) (post : List Customer)
    (hpre : ∀ x ∈ pre, x.customerId ≠ cid) (hc : c.customerId = cid) :
    setContact cid new_name new_mobile (pre ++ c :: post) =
      pre ++ contactUpdated c new_name new_mobile :: post := by
  induction pre with
  | nil => simp only [List.nil_append, setContact, if_pos hc, contactUpdated]
  | cons p t ih =>
    have hp : p.customerId ≠ cid := hpre p (by simp)
    simp only [List.cons_append, setContact, if_neg hp, List.append_eq]
    rw [ih (fun x hx => hpre x (by simp [hx]))]

/-- C5: `updateCustomerContactInfo` is a no-op when the id is unknown and
when the non-blank new mobile already belongs to a different customer;
otherwise it rewrites exactly the non-blank submitted fields of the
(first) customer with that id and leaves every other customer and every
other field untouched. -/
theorem C5_update_customer_spec :
    (∀ (cid rn rm : String) (df : List Customer),
      (∀ c ∈ df, c.customerId ≠ cid) →
      update_customer cid rn rm df = df) ∧
    (∀ (cid rn rm : String) (df : List Customer) (x : Customer),
      (∃ c ∈ df, c.customerId = cid) →
      pyStrip rm ≠ "" → x ∈ df → x.mobile = pyStrip rm → x.customerId ≠ cid →
      update_customer cid rn rm df = df) ∧
    (∀ (cid rn rm : String) (pre : List Customer) (c : Customer)
      (post : List Customer),
      (∀ x ∈ pre, x.customerId ≠ cid) → c.customerId = cid →
      (pyStrip rm = "" ∨
        ∀ x ∈ pre ++ c :: post, x.mobile = pyStrip rm → x.customerId = cid) →
      update_customer cid rn rm (pre ++ c :: post) =
        pre ++ contactUpdated c (pyStrip rn) (pyStrip rm) :: post) := by
  refine ⟨?_, ?_, ?_⟩
  · intro cid rn rm df h
    have hany : ¬ df.any (fun c => c.customerId == cid) := by
      simp only [List.any_eq_true, beq_iff_eq, not_exists, not_and]
      exact fun c hc => h c hc
    unfold update_customer
    rw [if_pos hany]
  · intro cid rn rm df x hex hrm hx hxm hxid
    have hany : df.any (fun c => c.customerId == cid) := by
      rcases hex with ⟨c, hc, hcid⟩
      simp only [List.any_eq_true, beq_iff_eq]
      exact ⟨c, hc, hcid⟩
    have hdup : df.any (fun c => c.mobile == pyStrip rm && c.customerId != cid) := by
      simp only [List.any_eq_true, Bool.and_eq_true, beq_iff_eq, bne_iff_ne]
      exact ⟨x, hx, hxm, hxid⟩
    unfold update_customer
    rw [if_neg (by simp [hany]), if_pos ⟨hrm, hdup⟩]
  · intro cid rn rm pre c post hpre hc hnodup
    have hmem : c ∈ pre ++ c :: post := by simp
    have hany : (pre ++ c :: post).any (fun x => x.customerId == cid) := by
      simp only [List.any_eq_true, beq_iff_eq]
      exact ⟨c, hmem, hc⟩
    have hdup : ¬ (pyStrip rm ≠ "" ∧
        (pre ++ c :: post).any
          (fun x => x.mobile == pyStrip rm && x.customerId != cid)) := by
      rintro ⟨hrm, hd⟩
      simp only [List.any_eq_true, Bool.and_eq_true, beq_iff_eq, bne_iff_ne] at hd
      rcases hd with ⟨x, hx, hxm, hxid⟩
      rcases hnodup with h0 | h0
      · exact hrm h0
      · exact hxid (h0 x hx hxm)
    unfold update_customer
    rw [if_neg (by simp [hany]), if_neg hdup]
    exact setContact_decomp cid (pyStrip rn) (pyStrip rm) pre c post hpre hc

/-- Witness for C5: editing `CUST0001`'s mobile to `777` (owned by
`CUST0003`) is rejected; editing it to the unused `888` with a blank name
changes only the mobile; an unknown id is a no-op. -/
theorem C5_update_customer_spec_witness :
    update_customer "CUST0001" "N" "777"
        [⟨"CUST0001", "Ann", "0501", 0, 0, 0, ""⟩,
         ⟨"CUST0003", "Bob", "777", 150, 150, 0, ""⟩] =
      [⟨"CUST0001", "Ann", "0501", 0, 0, 0, ""⟩,
       ⟨"CUST0003", "Bob", "777", 150, 150, 0, ""⟩] ∧
    update_customer "CUST0001" "" "888"
        [⟨"CUST0001", "Ann", "0501", 0, 0, 0, ""⟩,
         ⟨"CUST0003", "Bob", "777", 150, 150, 0, ""⟩] =
      [⟨"CUST0001", "Ann", "888", 0, 0, 0, ""⟩,
       ⟨"CUST0003", "Bob", "777", 150, 150, 0, ""⟩] ∧
    update_customer "CUST0009" "N" "888"
        [⟨"CUST0001", "Ann", "0501", 0, 0, 0, ""⟩] =
      [⟨"CUST0001", "Ann", "0501", 0, 0, 0, ""⟩] := by
  refine ⟨?_, ?_, ?_⟩
  · exact C5_update_customer_spec.2.1 "CUST0001" "N" "777" _
      ⟨"CUST0003", "Bob", "777", 150, 150, 0, ""⟩
      ⟨⟨"CUST0001", "Ann", "0501", 0, 0, 0, ""⟩, by simp, rfl⟩
      (by decide) (by simp) (by decide) (by decide)
  · have h := C5_update_customer_spec.2.2 "CUST0001" "" "888" []
      ⟨"CUST0001", "Ann", "0501", 0, 0, 0, ""⟩
      [⟨"CUST0003", "Bob", "777", 150, 150, 0, ""⟩]
      (by simp) rfl (Or.inr (by decide))
    simpa [contactUpdated] using h
  · exact C5_update_customer_spec.1 "CUST0009" "N" "888" _ (by decide)

/-! ## C6 -/

/-- C6: deleting a customer touches only the customers table: the history
is unchanged (so every `searchHistory` query returns the same result
afterwards), the surviving customers are exactly those whose id differs
from the requested one (in particular a no-op when the id is unknown),
and each of them is kept verbatim. -/
theorem C6_delete_customer_spec :
    ∀ (cid : String) (s : State),
      (applyOp (Op.delete cid) s).history = s.history ∧
      (applyOp (Op.delete cid) s).customers =
        s.customers.filter (fun c => c.customerId != cid) ∧
      ((∀ c ∈ s.customers, c.customerId ≠ cid) →
        applyOp (Op.delete cid) s = s) ∧
      (∀ c ∈ (applyOp (Op.delete cid) s).customers, c.customerId ≠ cid) ∧
      (∀ c ∈ s.customers, c.customerId ≠ cid →
        c ∈ (applyOp (Op.delete cid) s).customers) ∧
      (∀ q, searchHistory q (applyOp (Op.delete cid) s).history =
        searchHistory q s.history) := by
  intro cid s
  have hfil : (applyOp (Op.delete cid) s).customers =
      s.customers.filter (fun c => c.customerId != cid) := by
    show delete_customer cid s.customers = _
    unfold delete_customer
    split
    · rfl
    · next hany =>
      have hall : ∀ c ∈ s.customers, c.customerId ≠ cid := by
        intro c hc
        simp only [List.any_eq_true, beq_iff_eq, not_exists, not_and] at hany
        exact hany c hc
      rw [List.filter_eq_self.mpr (fun c hc => by
        simpa [bne_iff_ne] using hall c hc)]
  refine ⟨rfl, hfil, ?_, ?_, ?_, fun q => rfl⟩
  · intro hall
    have : s.customers.filter (fun c => c.customerId != cid) = s.customers :=
      List.filter_eq_self.mpr (fun c hc => by simpa [bne_iff_ne] using hall c hc)
    cases s with
    | mk cs hx => simp only [applyOp] at hfil ⊢; rw [show delete_customer cid cs =
        cs from hfil.trans this]
  · intro c hc
    rw [hfil] at hc
    have := (List.mem_filter.mp hc).2
    simpa [bne_iff_ne] using this
  · intro c hc hne
    rw [hfil]
    exact List.mem_filter.mpr ⟨hc, by simpa [bne_iff_ne] using hne⟩

/-- Witness for C6: deleting `CUST0001` removes exactly that customer,
keeps the history record referencing it, and deleting an unknown id is a
no-op. -/
theorem C6_delete_customer_spec_witness :
    (applyOp (Op.delete "CUST0001")
        ⟨[⟨"CUST0001", "Ann", "0501", 0, 0, 0, ""⟩,
          ⟨"CUST0003", "Bob", "777", 150, 150, 0, ""⟩],
         [⟨"aaa", "CUST0001", "Ann", "0501", "2024-03-07", 0, 0⟩]⟩).customers =
      [⟨"CUST0003", "Bob", "777", 150, 150, 0, ""⟩] ∧
    (applyOp (Op.delete "CUST0001")
        ⟨[⟨"CUST0001", "Ann", "0501", 0, 0, 0, ""⟩,
          ⟨"CUST0003", "Bob", "777", 150, 150, 0, ""⟩],
         [⟨"aaa", "CUST0001", "Ann", "0501", "2024-03-07", 0, 0⟩]⟩).history =
      [⟨"aaa", "CUST0001", "Ann", "0501", "2024-03-07", 0, 0⟩] ∧
    applyOp (Op.delete "zzz")
        ⟨[⟨"CUST0001", "Ann", "0501", 0, 0, 0, ""⟩], []⟩ =
      ⟨[⟨"CUST0001", "Ann", "0501", 0, 0, 0, ""⟩], []⟩ := by
  refine ⟨?_, (C6_delete_customer_spec "CUST0001" _).1, ?_⟩
  · rw [(C6_delete_customer_spec "CUST0001" _).2.1]; decide
  · exact (C6_delete_customer_spec "zzz" _).2.2.1 (by decide)

/-! ## C1 -/

theorem pyInt_eq_floor {q : ℚ} (h : 0 ≤ q) : pyInt q = ⌊q⌋ :=
  if_neg (not_lt.mpr h)

/-- Python's `int(n + a)` for an integer `n` and a float `a`, both
non-negative, adds `n` to the truncation of `a`. -/
theorem pyInt_int_add {n : Int} {q : ℚ} (hn : 0 ≤ n) (hq : 0 ≤ q) :
    pyInt ((n : ℚ) + q) = n + pyInt q := by
  rw [pyInt_eq_floor (add_nonneg (by exact_mod_cast hn) hq), pyInt_eq_floor hq,
    Int.floor_int_add]

theorem upsertPurchase_absent (name mobile : String) (amount : ℚ)
    (date : String) (df : List Customer)
    (h : ∀ c ∈ df, c.mobile ≠ mobile) :
    upsertPurchase name mobile amount date df = none := by
  induction df with
  | nil => rfl
  | cons c t ih =>
    have hc : c.mobile ≠ mobile := h c (by simp)
    simp only [upsertPurchase, if_neg hc]
    rw [ih (fun x hx => h x (by simp [hx]))]

/-- The in-place row update that `upsertPurchase` performs on the first
matching customer (`app.py` lines 102–106). -/
def purchasedCustomer (c : Customer) (name : String) (amount : ℚ)
    (date : String) : Customer :=
  { c with
    name := if name = "" then c.name else name,
    totalPurchase := pyInt ((c.totalPurchase : ℚ) + amount),
    points := c.points + points_from_amount amount,
    purchaseDate := date }

theorem upsertPurchase_decomp (name mobile : String) (amount : ℚ)
    (date : String) (pre : List Customer) (c : Customer)
    (post : List Customer)
    (hpre : ∀ x ∈ pre, x.mobile ≠ mobile) (hc : c.mobile = mobile) :
    upsertPurchase name mobile amount date (pre ++ c :: post) =
      some (pre ++ purchasedCustomer c name amount date :: post,
        c.customerId) := by
  induction pre with
  | nil => simp only [List.nil_append, upsertPurchase, if_pos hc, purchasedCustomer]
  | cons p t ih =>
    have hp : p.mobile ≠ mobile := hpre p (by simp)
    simp only [upsertPurchase, List.cons_append, if_neg hp, List.append_eq]
    rw [ih (fun x hx => hpre x (by simp [hx]))]

/-- C1: `recordPurchase` is an upsert keyed on the submitted mobile.  If
the (first) customer carrying exactly this mobile exists, it is updated
in place: Name overwritten only when the submitted name is non-empty,
Total_Purchase increased by the amount truncated to an integer, Points
increased by `⌊amount / 10⌋`, Purchase_Date overwritten unconditionally
with the supplied-or-defaulted date.  Otherwise a new customer is
appended with the next sequential id, `Total_Purchase = ⌊amount⌋`,
`Points = ⌊amount / 10⌋`, `Redeemed_Points = 0` and the
supplied-or-defaulted date.  (The inputs are assumed strip-normalised,
as the route strips them; the amount and the stored total are
non-negative, as the data model requires — Python `int(...)` truncation
and `⌊·⌋` agree there.) -/
theorem C1_recordPurchase_upsert_spec :
    ∀ (name mobile : String) (amount : ℚ) (rawDate today uuidHex : String)
      (s : State),
      pyStrip name = name → pyStrip mobile = mobile →
      ((∀ (pre : List Customer) (c : Customer) (post : List Customer),
        s.customers = pre ++ c :: post →
        (∀ x ∈ pre, x.mobile ≠ mobile) → c.mobile = mobile →
        0 ≤ amount → 0 ≤ c.totalPurchase →
        (recordPurchase name mobile amount rawDate today uuidHex s).customers =
          pre ++ { c with
            name := if name = "" then c.name else name,
            totalPurchase := c.totalPurchase + pyInt amount,
            points := c.points + ⌊amount / 10⌋,
            purchaseDate := effectiveDate rawDate today } :: post) ∧
      ((∀ x ∈ s.customers, x.mobile ≠ mobile) → 0 ≤ amount →
        (recordPurchase name mobile amount rawDate today uuidHex s).customers =
          s.customers ++ [⟨next_customer_id s.customers, name, mobile,
            ⌊amount⌋, ⌊amount / 10⌋, 0, effectiveDate rawDate today⟩])) := by
  intro name mobile amount rawDate today uuidHex s hn hm
  constructor
  · intro pre c post hs hpre hc ha ht
    simp only [recordPurchase, hn, hm, hs,
      upsertPurchase_decomp name mobile amount (effectiveDate rawDate today)
        pre c post hpre hc]
    simp only [purchasedCustomer]
    rw [pyInt_int_add ht ha]
    rfl
  · intro habs ha
    simp only [recordPurchase, hn, hm,
      upsertPurchase_absent name mobile amount (effectiveDate rawDate today)
        s.customers habs]
    rw [pyInt_eq_floor ha]
    rfl

/-- Witness for C1: a purchase of 2.7 for the existing mobile `0501`
keeps the blankly-renamed name rule, adds `int(2.7) = 2` to the total,
adds `⌊2.7 / 10⌋ = 0` points and rewrites the date; a purchase of 95 for
an unknown mobile appends `CUST0001` with total 95 and 9 points. -/
theorem C1_recordPurchase_upsert_spec_witness :
    (recordPurchase "Zed" "0501" (27/10) "2024-05-02" "2024-01-01" "u"
        ⟨[⟨"CUST0001", "Ann", "0501", 5, 3, 2, "2023-01-01"⟩], []⟩).customers =
      [⟨"CUST0001", "Zed", "0501", 7, 3, 2, "2024-05-02"⟩] ∧
    (recordPurchase "Zed" "0501" 95 "" "2024-01-01" "u"
        ⟨[], []⟩).customers =
      [⟨"CUST0001", "Zed", "0501", 95, 9, 0, "2024-01-01"⟩] := by
  constructor
  · have h := (C1_recordPurchase_upsert_spec "Zed" "0501" (27/10) "2024-05-02"
      "2024-01-01" "u" ⟨[⟨"CUST0001", "Ann", "0501", 5, 3, 2, "2023-01-01"⟩], []⟩
      (by decide) (by decide)).1 []
      ⟨"CUST0001", "Ann", "0501", 5, 3, 2, "2023-01-01"⟩ [] rfl (by simp) rfl
      (by norm_num) (by decide)
    rw [h]
    norm_num [pyInt, effectiveDate]
    decide
  · have h := (C1_recordPurchase_upsert_spec "Zed" "0501" 95 "" "2024-01-01" "u"
      ⟨[], []⟩ (by decide) (by decide)).2 (by simp) (by norm_num)
    rw [h]
    norm_num [effectiveDate]
    decide

/-! ## C7 and C10 -/

/-- Every `recordPurchase` call appends exactly one transaction record to
the history, snapshotting the stripped submitted name and mobile, the
effective date, the amount and the points earned (`app.py` lines
124–134). -/
theorem recordPurchase_history (rawName rawMobile : String) (amount : ℚ)
    (rawDate today uuidHex : String) (s : State) :
    ∃ cid,
      (recordPurchase rawName rawMobile amount rawDate today uuidHex s).history =
        s.history ++ [⟨mkTxnId uuidHex, cid, pyStrip rawName, pyStrip rawMobile,
          effectiveDate rawDate today, amount, points_from_amount amount⟩] := by
  simp only [recordPurchase]
  exact ⟨_, rfl⟩

theorem mkTxnId_length (uuidHex : String) (h : 12 ≤ uuidHex.length) :
    (mkTxnId uuidHex).length = 12 := by
  show (uuidHex.data.take 12).length = 12
  rw [List.length_take]
  exact Nat.min_eq_left h

/-- C7: the history is append-only.  A purchase appends exactly one new
record (its id the first 12 characters of the fresh uuid hex — 12
characters long whenever the environment supplies at least 12, as
`uuid4().hex` with its 32 always does — and a snapshot of name, mobile,
date, amount and points earned) and every other operation leaves the
history untouched; hence after any operation sequence the original
history is a prefix of the resulting one, every existing record
unmodified and unremoved. -/
theorem C7_history_append_only_spec :
    (∀ (rawName rawMobile : String) (amount : ℚ)
      (rawDate today uuidHex : String) (s : State),
      ∃ cid,
        (applyOp (Op.purchase rawName rawMobile amount rawDate today uuidHex)
            s).history =
          s.history ++ [⟨mkTxnId uuidHex, cid, pyStrip rawName,
            pyStrip rawMobile, effectiveDate rawDate today, amount,
            points_from_amount amount⟩]) ∧
    (∀ uuidHex : String, 12 ≤ uuidHex.length → (mkTxnId uuidHex).length = 12) ∧
    (∀ (cid : String) (rp : Int) (s : State),
      (applyOp (Op.redeem cid rp) s).history = s.history) ∧
    (∀ (cid rawName rawMobile : String) (s : State),
      (applyOp (Op.update cid rawName rawMobile) s).history = s.history) ∧
    (∀ (cid : String) (s : State),
      (applyOp (Op.delete cid) s).history = s.history) ∧
    (∀ (ops : List Op) (s : State),
      ∃ ext, (run ops s).history = s.history ++ ext) := by
  refine ⟨fun rawName rawMobile amount rawDate today uuidHex s =>
      recordPurchase_history rawName rawMobile amount rawDate today uuidHex s,
    mkTxnId_length, fun _ _ _ => rfl, fun _ _ _ _ => rfl, fun _ _ => rfl, ?_⟩
  intro ops
  induction ops with
  | nil => exact fun s => ⟨[], by simp [run]⟩
  | cons op ops ih =>
    intro s
    have hstep : ∃ e1, (applyOp op s).history = s.history ++ e1 := by
      cases op with
      | purchase rawName rawMobile amount rawDate today uuidHex =>
        rcases recordPurchase_history rawName rawMobile amount rawDate today
          uuidHex s with ⟨cid, h⟩
        exact ⟨_, h⟩
      | redeem cid rp => exact ⟨[], by simp [applyOp]⟩
      | update cid rawName rawMobile => exact ⟨[], by simp [applyOp]⟩
      | delete cid => exact ⟨[], by simp [applyOp]⟩
    rcases hstep with ⟨e1, h1⟩
    rcases ih (applyOp op s) with ⟨e2, h2⟩
    refine ⟨e1 ++ e2, ?_⟩
    show (run ops (applyOp op s)).history = _
    rw [h2, h1, List.append_assoc]

/-- Witness for C7: a 32-character uuid hex yields a 12-character
transaction id. -/
theorem C7_history_append_only_spec_witness :
    (mkTxnId "0123456789abcdef0123456789abcdef").length = 12 :=
  C7_history_append_only_spec.2.1 "0123456789abcdef0123456789abcdef"
    (by decide)

/-- C10: the transaction record appended by `recordPurchase` snapshots
the stripped *submitted* name and mobile, not the customer record's
resulting fields; in particular a purchase for an existing customer with
a blank submitted name leaves the customer's Name unchanged while the
appended history record carries the empty-string Name. -/
theorem C10_txn_snapshot_spec :
    (∀ (rawName rawMobile : String) (amount : ℚ)
      (rawDate today uuidHex : String) (s : State),
      ∃ cid,
        (recordPurchase rawName rawMobile amount rawDate today uuidHex
            s).history =
          s.history ++ [⟨mkTxnId uuidHex, cid, pyStrip rawName,
            pyStrip rawMobile, effectiveDate rawDate today, amount,
            points_from_amount amount⟩]) ∧
    (∀ (rawName rawMobile : String) (amount : ℚ)
      (rawDate today uuidHex : String) (pre : List Customer) (c : Customer)
      (post : List Customer) (hx : List Txn),
      pyStrip rawName = "" →
      (∀ x ∈ pre, x.mobile ≠ pyStrip rawMobile) →
      c.mobile = pyStrip rawMobile →
      (recordPurchase rawName rawMobile amount rawDate today uuidHex
          ⟨pre ++ c :: post, hx⟩).customers =
        pre ++ { c with
          totalPurchase := pyInt ((c.totalPurchase : ℚ) + amount),
          points := c.points + points_from_amount amount,
          purchaseDate := effectiveDate rawDate today } :: post ∧
      (recordPurchase rawName rawMobile amount rawDate today uuidHex
          ⟨pre ++ c :: post, hx⟩).history =
        hx ++ [⟨mkTxnId uuidHex, c.customerId, "", pyStrip rawMobile,
          effectiveDate rawDate today, amount, points_from_amount amount⟩]) := by
  constructor
  · exact recordPurchase_history
  · intro rawName rawMobile amount rawDate today uuidHex pre c post hx hname
      hpre hc
    have hd := upsertPurchase_decomp (pyStrip rawName) (pyStrip rawMobile)
      amount (effectiveDate rawDate today) pre c post hpre hc
    rw [hname] at hd
    constructor
    · simp only [recordPurchase, hname, hd, purchasedCustomer, if_pos rfl,
        if_true]
    · simp only [recordPurchase, hname, hd]

/-- Witness for C10: a purchase with submitted name `" "` (stripping to
the empty string) for the existing mobile `0501` keeps the customer's
Name `Ann` while the appended history record's Name is `""`. -/
theorem C10_txn_snapshot_spec_witness :
    (recordPurchase " " "0501" 95 "2024-05-02" "2024-01-01"
        "0123456789abcdef0123456789abcdef"
        ⟨[⟨"CUST0001", "Ann", "0501", 5, 3, 2, "2023-01-01"⟩], []⟩).customers =
      [⟨"CUST0001", "Ann", "0501", 100, 12, 2, "2024-05-02"⟩] ∧
    (recordPurchase " " "0501" 95 "2024-05-02" "2024-01-01"
        "0123456789abcdef0123456789abcdef"
        ⟨[⟨"CUST0001", "Ann", "0501", 5, 3, 2, "2023-01-01"⟩], []⟩).history =
      [⟨"0123456789ab", "CUST0001", "", "0501", "2024-05-02", 95, 9⟩] := by
  have h := C10_txn_snapshot_spec.2 " " "0501" 95 "2024-05-02" "2024-01-01"
    "0123456789abcdef0123456789abcdef" []
    ⟨"CUST0001", "Ann", "0501", 5, 3, 2, "2023-01-01"⟩ [] []
    (by decide) (by simp) (by decide)
  simp only [List.nil_append] at h
  constructor
  · rw [h.1]
    norm_num [pyInt, points_from_amount, effectiveDate]
    decide
  · rw [h.2]
    norm_num [points_from_amount, effectiveDate]
    decide

/-! ## C8 -/

theorem patMatchAt_eq_substrAt (pat : List Char) (hp : '.' ∉ pat) :
    ∀ s : List Char, patMatchAt pat s = substrAt pat s := by
  induction pat with
  | nil => intro s; cases s <;> rfl
  | cons p ps ih =>
    intro s
    cases s with
    | nil => rfl
    | cons c cs =>
      have hp1 : p ≠ '.' := fun h => hp (by simp [h])
      have hps : '.' ∉ ps := fun h => hp (by simp [h])
      have hb : (p == '.') = false := by simpa using hp1
      simp only [patMatchAt, substrAt, ih hps, hb, Bool.false_or]

theorem patSearch_eq_substrCI (pat : List Char) (hp : '.' ∉ pat) :
    ∀ s : List Char, patSearch pat s = substrCI pat s := by
  intro s
  induction s with
  | nil => simp only [patSearch, substrCI, patMatchAt_eq_substrAt pat hp]
  | cons c cs ih =>
    simp only [patSearch, substrCI, patMatchAt_eq_substrAt pat hp, ih]

theorem pandasContains_eq_strContainsCI (hay pat : String)
    (hp : ∀ ch ∈ pat.toList, ch.isAlphanum = true) :
    pandasContains hay pat = strContainsCI hay pat := by
  have hdot : '.' ∉ pat.toList := fun h => by
    have := hp '.' h
    simp at this
  exact patSearch_eq_substrCI pat.toList hdot hay.toList

/-- C8 counterexample: the code passes the query to pandas
`str.contains`, which interprets it as a regular expression
(`regex=True` is the default), not as a literal substring.  For the
query `"."` and a customer whose Mobile is `"5"` and Customer_ID is
`"CUST0001"`, the code returns the customer although `"."` is not a
case-insensitive substring of either field, so the claim as stated is
false. -/
theorem C8_searchCustomers_regex_counterexample :
    searchCustomers "." [⟨"CUST0001", "Ann", "5", 0, 0, 0, ""⟩] =
      [⟨"CUST0001", "Ann", "5", 0, 0, 0, ""⟩] ∧
    searchCustomersSpec "." [⟨"CUST0001", "Ann", "5", 0, 0, 0, ""⟩] = [] ∧
    strContainsCI "5" "." = false ∧
    strContainsCI "CUST0001" "." = false := by
  decide

/-- C8 (amended): for every query whose trimmed form consists of
alphanumeric characters only — on which Python's regex search coincides
with literal substring search — `searchCustomers` returns exactly the
customers whose Mobile or Customer_ID contains the trimmed query as a
case-insensitive substring, in storage order; a query that is empty
after trimming always yields the empty result, never the full set. -/
theorem C8_searchCustomers_spec :
    ∀ (q : String) (df : List Customer),
      (pyStrip q = "" → searchCustomers q df = []) ∧
      ((∀ ch ∈ (pyStrip q).toList, ch.isAlphanum = true) →
        searchCustomers q df =
          df.filter (fun c => strContainsCI c.mobile (pyStrip q) ||
            strContainsCI c.customerId (pyStrip q)) ∨
        (pyStrip q = "" ∧ searchCustomers q df = [])) ∧
      ((∀ ch ∈ (pyStrip q).toList, ch.isAlphanum = true) →
        searchCustomers q df = searchCustomersSpec q df) := by
  intro q df
  have hspec : (∀ ch ∈ (pyStrip q).toList, ch.isAlphanum = true) →
      searchCustomers q df = searchCustomersSpec q df := by
    intro halnum
    unfold searchCustomers searchCustomersSpec
    by_cases hq : pyStrip q = ""
    · rw [if_pos hq, if_pos hq]
    · rw [if_neg hq, if_neg hq]
      exact List.filter_congr (fun c _ => by
        rw [pandasContains_eq_strContainsCI c.mobile (pyStrip q) halnum,
          pandasContains_eq_strContainsCI c.customerId (pyStrip q) halnum])
  refine ⟨fun hq => by unfold searchCustomers; rw [if_pos hq], ?_, hspec⟩
  intro halnum
  by_cases hq : pyStrip q = ""
  · exact Or.inr ⟨hq, by unfold searchCustomers; rw [if_pos hq]⟩
  · refine Or.inl ?_
    rw [hspec halnum]
    unfold searchCustomersSpec
    rw [if_neg hq]

/-- Witness for C8 (amended) at concrete inputs: the alphanumeric query
`cust` matches both customers through their ids, the query `050` matches
one through its mobile, and the blank query returns nothing. -/
theorem C8_searchCustomers_spec_witness :
    searchCustomers "cust"
        [⟨"CUST0001", "Ann", "0501", 0, 0, 0, ""⟩,
         ⟨"CUST0003", "Bob", "777", 150, 150, 0, ""⟩] =
      [⟨"CUST0001", "Ann", "0501", 0, 0, 0, ""⟩,
       ⟨"CUST0003", "Bob", "777", 150, 150, 0, ""⟩] ∧
    searchCustomers " 050 "
        [⟨"CUST0001", "Ann", "0501", 0, 0, 0, ""⟩,
         ⟨"CUST0003", "Bob", "777", 150, 150, 0, ""⟩] =
      [⟨"CUST0001", "Ann", "0501", 0, 0, 0, ""⟩] ∧
    searchCustomers "  "
        [⟨"CUST0001", "Ann", "0501", 0, 0, 0, ""⟩] = [] := by
  refine ⟨?_, ?_, (C8_searchCustomers_spec "  " _).1 (by decide)⟩
  · rw [(C8_searchCustomers_spec "cust" _).2.2 (by decide)]
    decide
  · rw [(C8_searchCustomers_spec " 050 " _).2.2 (by decide)]
    decide

/-! ## C9 -/

/-- The history sort order: row `a` may be placed at or before row `b`. -/
def txnLE (a b : Txn) : Prop :=
  keyBefore (dateKey a) (dateKey b) = true

instance (a b : Txn) : Decidable (txnLE a b) := by
  unfold txnLE; infer_instance

theorem keyBefore_refl (a : Option Nat) : keyBefore a a = true := by
  cases a <;> simp [keyBefore]

theorem keyBefore_total (a b : Option Nat) :
    keyBefore a b = true ∨ keyBefore b a = true := by
  cases a <;> cases b <;> simp [keyBefore] <;> omega

theorem keyBefore_trans {a b c : Option Nat} (h1 : keyBefore a b = true)
    (h2 : keyBefore b c = true) : keyBefore a c = true := by
  cases a <;> cases b <;> cases c <;> simp [keyBefore] at * <;> omega

theorem insertTxn_perm (t : Txn) (l : List Txn) :
    (insertTxn t l).Perm (t :: l) := by
  induction l with
  | nil => exact List.Perm.refl _
  | cons u us ih =>
    simp only [insertTxn]
    split
    · exact List.Perm.refl _
    · exact (ih.cons u).trans (List.Perm.swap t u us)

theorem insertTxn_sorted (t : Txn) (l : List Txn) (h : l.Pairwise txnLE) :
    (insertTxn t l).Pairwise txnLE := by
  induction l with
  | nil => simp [insertTxn]
  | cons u us ih =>
    rcases List.pairwise_cons.mp h with ⟨hu, hus⟩
    simp only [insertTxn]
    split
    · next hkb =>
      refine List.pairwise_cons.mpr ⟨?_, h⟩
      intro x hx
      rcases List.mem_cons.mp hx with rfl | hx
      · exact hkb
      · exact keyBefore_trans hkb (hu x hx)
    · next hkb =>
      have hut : txnLE u t := by
        rcases keyBefore_total (dateKey t) (dateKey u) with h1 | h1
        · exact absurd h1 hkb
        · exact h1
      refine List.pairwise_cons.mpr ⟨?_, ih hus⟩
      intro x hx
      have hx' := (insertTxn_perm t us).mem_iff.mp hx
      rcases List.mem_cons.mp hx' with rfl | hx'
      · exact hut
      · exact hu x hx'

theorem sortTxns_perm (l : List Txn) : (sortTxns l).Perm l := by
  induction l with
  | nil => exact List.Perm.refl _
  | cons t ts ih =>
    exact (insertTxn_perm t (sortTxns ts)).trans (ih.cons t)

theorem sortTxns_sorted (l : List Txn) : (sortTxns l).Pairwise txnLE := by
  induction l with
  | nil => simp [sortTxns]
  | cons t ts ih => exact insertTxn_sorted t (sortTxns ts) ih

/-- C9 counterexample: as in C8, the history query is a pandas regex, so
the query `"."` returns a record although it is not a case-insensitive
substring of the record's Mobile or Customer_ID, falsifying the claim's
description of the returned set. -/
theorem C9_searchHistory_regex_counterexample :
    ((searchHistory "." [⟨"a1", "CUSTX", "N", "7", "2024-01-01", 0, 0⟩]).1).length = 1 ∧
    strContainsCI "7" "." = false ∧
    strContainsCI "CUSTX" "." = false := by
  decide

/-- C9 (amended): for every query that is non-empty after trimming and —
so that pandas' regex interpretation coincides with literal substring
matching — consists of alphanumeric characters only, `searchHistory`
returns the records whose Mobile or Customer_ID contains the trimmed
query case-insensitively (each with its Purchase_Date re-rendered by
`strftime`), ordered by parsed Purchase_Date descending with unparsable
dates in the lowest (last) positions; when the result set is non-empty
the header is the Customer_ID, Name and Mobile of the most-recent
matching record, the head of the sorted list, whose sort key dominates
every other. -/
theorem C9_searchHistory_spec :
    ∀ (q : String) (hx : List Txn),
      pyStrip q ≠ "" →
      (∀ ch ∈ (pyStrip q).toList, ch.isAlphanum = true) →
      ∃ sorted : List Txn,
        sorted.Perm (hx.filter (fun t =>
          strContainsCI t.mobile (pyStrip q) ||
          strContainsCI t.customerId (pyStrip q))) ∧
        sorted.Pairwise txnLE ∧
        (searchHistory q hx).1 = sorted.map (fun t =>
          { t with purchaseDate := reformatDate t.purchaseDate }) ∧
        (sorted = [] → searchHistory q hx = ([], none)) ∧
        (∀ f rest, sorted = f :: rest →
          (searchHistory q hx).2 = some (f.customerId, f.name, f.mobile) ∧
          ∀ t ∈ sorted, txnLE f t) := by
  intro q hx hq halnum
  have hfeq : hx.filter (fun t =>
      pandasContains t.mobile (pyStrip q) ||
      pandasContains t.customerId (pyStrip q)) =
    hx.filter (fun t =>
      strContainsCI t.mobile (pyStrip q) ||
      strContainsCI t.customerId (pyStrip q)) :=
    List.filter_congr (fun t _ => by
      rw [pandasContains_eq_strContainsCI t.mobile (pyStrip q) halnum,
        pandasContains_eq_strContainsCI t.customerId (pyStrip q) halnum])
  refine ⟨sortTxns (hx.filter (fun t =>
    pandasContains t.mobile (pyStrip q) ||
    pandasContains t.customerId (pyStrip q))), ?_, sortTxns_sorted _, ?_, ?_, ?_⟩
  · rw [hfeq]; exact sortTxns_perm _
  · simp only [searchHistory, if_neg hq]
    cases hS : sortTxns (hx.filter (fun t =>
      pandasContains t.mobile (pyStrip q) ||
      pandasContains t.customerId (pyStrip q))) with
    | nil => simp
    | cons f rest => simp
  · intro hS
    simp only [searchHistory, if_neg hq, hS, List.map_nil]
  · intro f rest hS
    constructor
    · simp only [searchHistory, if_neg hq, hS, List.map_cons]
    · intro t ht
      have hp := sortTxns_sorted (hx.filter (fun t =>
        pandasContains t.mobile (pyStrip q) ||
        pandasContains t.customerId (pyStrip q)))
      rw [hS] at hp ht
      rcases List.pairwise_cons.mp hp with ⟨hf, _⟩
      rcases List.mem_cons.mp ht with rfl | ht
      · exact keyBefore_refl _
      · exact hf t ht

/-- Witness for C9 at a concrete history: the query `0501` (alphanumeric,
non-empty) returns the two dated records newest-first followed by the
record with the unparsable date `oops`, the header coming from the
newest record; the witness also instantiates the theorem itself there. -/
theorem C9_searchHistory_spec_witness :
    (searchHistory "0501"
        [⟨"a1", "CUST0001", "Ann", "0501", "2024-03-07", 0, 0⟩,
         ⟨"a3", "CUST0001", "Ann", "0501", "oops", 0, 0⟩,
         ⟨"a2", "CUST0001", "Ann", "0501", "2024-05-01", 0, 0⟩]).1 =
      [⟨"a2", "CUST0001", "Ann", "0501", "2024-05-01", 0, 0⟩,
       ⟨"a1", "CUST0001", "Ann", "0501", "2024-03-07", 0, 0⟩,
       ⟨"a3", "CUST0001", "Ann", "0501", "NaT", 0, 0⟩] ∧
    (searchHistory "0501"
        [⟨"a1", "CUST0001", "Ann", "0501", "2024-03-07", 0, 0⟩,
         ⟨"a3", "CUST0001", "Ann", "0501", "oops", 0, 0⟩,
         ⟨"a2", "CUST0001", "Ann", "0501", "2024-05-01", 0, 0⟩]).2 =
      some ("CUST0001", "Ann", "0501") ∧
    (∃ sorted : List Txn,
      sorted.Perm ([⟨"a1", "CUST0001", "Ann", "0501", "2024-03-07", 0, 0⟩,
         ⟨"a3", "CUST0001", "Ann", "0501", "oops", 0, 0⟩,
         ⟨"a2", "CUST0001", "Ann", "0501", "2024-05-01", 0, 0⟩].filter
          (fun t => strContainsCI t.mobile (pyStrip "0501") ||
            strContainsCI t.customerId (pyStrip "0501"))) ∧
      sorted.Pairwise txnLE ∧
      (searchHistory "0501"
          [⟨"a1", "CUST0001", "Ann", "0501", "2024-03-07", 0, 0⟩,
           ⟨"a3", "CUST0001", "Ann", "0501", "oops", 0, 0⟩,
           ⟨"a2", "CUST0001", "Ann", "0501", "2024-05-01", 0, 0⟩]).1 =
        sorted.map (fun t =>
          { t with purchaseDate := reformatDate t.purchaseDate }) ∧
      (sorted = [] → searchHistory "0501"
          [⟨"a1", "CUST0001", "Ann", "0501", "2024-03-07", 0, 0⟩,
           ⟨"a3", "CUST0001", "Ann", "0501", "oops", 0, 0⟩,
           ⟨"a2", "CUST0001", "Ann", "0501", "2024-05-01", 0, 0⟩] = ([], none)) ∧
      (∀ f rest, sorted = f :: rest →
        (searchHistory "0501"
            [⟨"a1", "CUST0001", "Ann", "0501", "2024-03-07", 0, 0⟩,
             ⟨"a3", "CUST0001", "Ann", "0501", "oops", 0, 0⟩,
             ⟨"a2", "CUST0001", "Ann", "0501", "2024-05-01", 0, 0⟩]).2 =
          some (f.customerId, f.name, f.mobile) ∧
        ∀ t ∈ sorted, txnLE f t)) := by
  refine ⟨by decide, by decide, ?_⟩
  exact C9_searchHistory_spec "0501"
    [⟨"a1", "CUST0001", "Ann", "0501", "2024-03-07", 0, 0⟩,
     ⟨"a3", "CUST0001", "Ann", "0501", "oops", 0, 0⟩,
     ⟨"a2", "CUST0001", "Ann", "0501", "2024-05-01", 0, 0⟩]
    (by decide) (by decide)

/-! ## C3

The identity/monotonicity part of C3 is a property of what each single
operation does to the customers table it acts on, captured by
`StepFrame`: the table after the operation is obtained from the table
before it by exactly one of three shapes — an in-place rewrite of rows
that never touches a `Customer_ID` and never lowers a `Redeemed_Points`
(`List.Forall₂ frameOk`: same length, row `i` descending from row `i`),
the appending of one new customer whose `Redeemed_Points` is zero, or
the removal of precisely the rows bearing one `Customer_ID`.  Each shape
pins the whole output to the whole input, so the property is falsified
by any operation that rewrote an id or lowered a redeemed counter. -/

/-- Row `k` descends from row `b`: same `Customer_ID`, and
`Redeemed_Points` has not decreased. -/
def frameOk (b k : Customer) : Prop :=
  k.customerId = b.customerId ∧ b.redeemedPoints ≤ k.redeemedPoints

/-- The three shapes a single operation can give to the customers table:
a pointwise `frameOk` rewrite of all rows, the appending of one fresh
customer with `Redeemed_Points = 0`, or the deletion of the rows of one
`Customer_ID`. -/
def StepFrame (df df' : List Customer) : Prop :=
  List.Forall₂ frameOk df df' ∨
  (∃ c, df' = df ++ [c] ∧ c.redeemedPoints = 0) ∨
  (∃ cid, df' = df.filter (fun c => c.customerId != cid))

theorem frameOk_refl (c : Customer) : frameOk c c :=
  ⟨rfl, le_refl _⟩

theorem forall₂_frameOk_refl (l : List Customer) :
    List.Forall₂ frameOk l l := by
  induction l with
  | nil => exact List.Forall₂.nil
  | cons c t ih => exact List.Forall₂.cons (frameOk_refl c) ih

theorem forall₂_frameOk_mem :
    ∀ {l m : List Customer}, List.Forall₂ frameOk l m →
      ∀ c' ∈ m, ∃ c ∈ l, frameOk c c' := by
  intro l m h
  induction h with
  | nil => intro c' hc'; simp at hc'
  | cons hR h ih =>
    intro c' hc'
    rcases List.mem_cons.mp hc' with rfl | hc'
    · exact ⟨_, by simp, hR⟩
    · rcases ih c' hc' with ⟨c, hc, hf⟩
      exact ⟨c, by simp [hc], hf⟩

/-- Every row present after a `StepFrame` step descends from a row
present before it — same `Customer_ID`, `Redeemed_Points` not smaller —
unless it is a freshly appended row with `Redeemed_Points` zero. -/
theorem stepFrame_descent {df df' : List Customer} (h : StepFrame df df') :
    ∀ c' ∈ df',
      (∃ c ∈ df, c'.customerId = c.customerId ∧
        c.redeemedPoints ≤ c'.redeemedPoints) ∨
      c'.redeemedPoints = 0 := by
  intro c' hc'
  rcases h with h | ⟨c, rfl, hc0⟩ | ⟨cid, rfl⟩
  · rcases forall₂_frameOk_mem h c' hc' with ⟨c, hc, hf⟩
    exact Or.inl ⟨c, hc, hf.1, hf.2⟩
  · rcases List.mem_append.mp hc' with hc' | hc'
    · exact Or.inl ⟨c', hc', rfl, le_refl _⟩
    · rcases List.mem_singleton.mp hc' with rfl
      exact Or.inr hc0
  · exact Or.inl ⟨c', List.mem_of_mem_filter hc', rfl, le_refl _⟩

theorem upsertPurchase_forall₂ (n m : String) (a : ℚ) (d : String) :
    ∀ {df df' : List Customer} {cid : String},
      upsertPurchase n m a d df = some (df', cid) →
      List.Forall₂ frameOk df df' := by
  intro df
  induction df with
  | nil => intro df' cid h; simp [upsertPurchase] at h
  | cons c t ih =>
    intro df' cid h
    by_cases hm : c.mobile = m
    · simp only [upsertPurchase, if_pos hm, Option.some.injEq,
        Prod.mk.injEq] at h
      rcases h with ⟨rfl, rfl⟩
      exact List.Forall₂.cons ⟨rfl, le_refl _⟩ (forall₂_frameOk_refl t)
    · simp only [upsertPurchase, if_neg hm] at h
      cases hU : upsertPurchase n m a d t with
      | none => rw [hU] at h; simp at h
      | some r =>
        obtain ⟨t', cid'⟩ := r
        rw [hU] at h
        simp only [Option.some.injEq, Prod.mk.injEq] at h
        rcases h with ⟨rfl, rfl⟩
        exact List.Forall₂.cons (frameOk_refl c) (ih hU)

theorem redeemList_forall₂ (cid : String) (rp : Int) :
    ∀ df : List Customer, List.Forall₂ frameOk df (redeemList cid rp df) := by
  intro df
  induction df with
  | nil => exact List.Forall₂.nil
  | cons c t ih =>
    simp only [redeemList]
    by_cases hid : c.customerId = cid
    · rw [if_pos hid]
      refine List.Forall₂.cons ?_ (forall₂_frameOk_refl t)
      by_cases hcan : 100 ≤ c.points ∧ 100 ≤ rp ∧ rp ≤ c.points
      · rw [if_pos hcan]
        have h100 : (100 : Int) ≤ rp := hcan.2.1
        exact ⟨rfl, by show c.redeemedPoints ≤ c.redeemedPoints + rp; omega⟩
      · rw [if_neg hcan]; exact frameOk_refl c
    · rw [if_neg hid]
      exact List.Forall₂.cons (frameOk_refl c) ih

theorem setContact_forall₂ (cid nn nm : String) :
    ∀ df : List Customer, List.Forall₂ frameOk df (setContact cid nn nm df) := by
  intro df
  induction df with
  | nil => exact List.Forall₂.nil
  | cons c t ih =>
    simp only [setContact]
    by_cases hid : c.customerId = cid
    · rw [if_pos hid]
      exact List.Forall₂.cons ⟨rfl, le_refl _⟩ (forall₂_frameOk_refl t)
    · rw [if_neg hid]
      exact List.Forall₂.cons (frameOk_refl c) ih

theorem applyOp_stepFrame (op : Op) (s : State) :
    StepFrame s.customers (applyOp op s).customers := by
  cases op with
  | purchase rawName rawMobile amount rawDate today uuidHex =>
    cases hU : upsertPurchase (pyStrip rawName) (pyStrip rawMobile) amount
      (effectiveDate rawDate today) s.customers with
    | none =>
      have hcs : (applyOp
          (Op.purchase rawName rawMobile amount rawDate today uuidHex)
          s).customers = s.customers ++
            [⟨next_customer_id s.customers, pyStrip rawName,
              pyStrip rawMobile, pyInt amount, points_from_amount amount, 0,
              effectiveDate rawDate today⟩] := by
        simp only [applyOp, recordPurchase, hU]
      rw [hcs]
      exact Or.inr (Or.inl ⟨_, rfl, rfl⟩)
    | some r =>
      obtain ⟨df', cid⟩ := r
      have hcs : (applyOp
          (Op.purchase rawName rawMobile amount rawDate today uuidHex)
          s).customers = df' := by
        simp only [applyOp, recordPurchase, hU]
      rw [hcs]
      exact Or.inl (upsertPurchase_forall₂ _ _ _ _ hU)
  | redeem cid rp => exact Or.inl (redeemList_forall₂ cid rp _)
  | update cid rawName rawMobile =>
    show StepFrame s.customers (update_customer cid rawName rawMobile s.customers)
    simp only [update_customer]
    split
    · exact Or.inl (forall₂_frameOk_refl _)
    · split
      · exact Or.inl (forall₂_frameOk_refl _)
      · exact Or.inl (setContact_forall₂ _ _ _ _)
  | delete cid =>
    show StepFrame s.customers (delete_customer cid s.customers)
    simp only [delete_customer]
    split
    · exact Or.inr (Or.inr ⟨cid, rfl⟩)
    · exact Or.inl (forall₂_frameOk_refl _)

theorem upsertPurchase_points (n m : String) (a : ℚ) (d : String)
    (hpfa : 0 ≤ points_from_amount a) :
    ∀ {df df' : List Customer} {cid : String},
      upsertPurchase n m a d df = some (df', cid) →
      (∀ c ∈ df, 0 ≤ c.points) → ∀ c ∈ df', 0 ≤ c.points := by
  intro df
  induction df with
  | nil => intro df' cid h; simp [upsertPurchase] at h
  | cons c t ih =>
    intro df' cid h hinv
    by_cases hm : c.mobile = m
    · simp only [upsertPurchase, if_pos hm, Option.some.injEq,
        Prod.mk.injEq] at h
      rcases h with ⟨rfl, rfl⟩
      intro x hx
      rcases List.mem_cons.mp hx with rfl | hx
      · have hc : 0 ≤ c.points := hinv c (by simp)
        show 0 ≤ c.points + points_from_amount a
        omega
      · exact hinv x (by simp [hx])
    · simp only [upsertPurchase, if_neg hm] at h
      cases hU : upsertPurchase n m a d t with
      | none => rw [hU] at h; simp at h
      | some r =>
        obtain ⟨t', cid'⟩ := r
        rw [hU] at h
        simp only [Option.some.injEq, Prod.mk.injEq] at h
        rcases h with ⟨rfl, rfl⟩
        intro x hx
        rcases List.mem_cons.mp hx with rfl | hx
        · exact hinv x (by simp)
        · exact ih hU (fun y hy => hinv y (by simp [hy])) x hx

theorem redeemList_points (cid : String) (rp : Int) :
    ∀ df : List Customer, (∀ c ∈ df, 0 ≤ c.points) →
      ∀ c ∈ redeemList cid rp df, 0 ≤ c.points := by
  intro df
  induction df with
  | nil => intro _ c hc; simp [redeemList] at hc
  | cons c t ih =>
    intro hinv x hx
    simp only [redeemList] at hx
    by_cases hid : c.customerId = cid
    · rw [if_pos hid] at hx
      rcases List.mem_cons.mp hx with rfl | hx
      · by_cases hcan : 100 ≤ c.points ∧ 100 ≤ rp ∧ rp ≤ c.points
        · rw [if_pos hcan]
          have := hcan.2.2
          show 0 ≤ c.points - rp
          omega
        · rw [if_neg hcan]
          exact hinv c (by simp)
      · exact hinv x (by simp [hx])
    · rw [if_neg hid] at hx
      rcases List.mem_cons.mp hx with rfl | hx
      · exact hinv x (by simp)
      · exact ih (fun y hy => hinv y (by simp [hy])) x hx

theorem setContact_points (cid nn nm : String) :
    ∀ df : List Customer, (∀ c ∈ df, 0 ≤ c.points) →
      ∀ c ∈ setContact cid nn nm df, 0 ≤ c.points := by
  intro df
  induction df with
  | nil => intro _ c hc; simp [setContact] at hc
  | cons c t ih =>
    intro hinv x hx
    simp only [setContact] at hx
    by_cases hid : c.customerId = cid
    · rw [if_pos hid] at hx
      rcases List.mem_cons.mp hx with rfl | hx
      · exact hinv c (by simp)
      · exact hinv x (by simp [hx])
    · rw [if_neg hid] at hx
      rcases List.mem_cons.mp hx with rfl | hx
      · exact hinv x (by simp)
      · exact ih (fun y hy => hinv y (by simp [hy])) x hx

theorem applyOp_points (op : Op) (s : State) (hok : amountOk op)
    (h : ∀ c ∈ s.customers, 0 ≤ c.points) :
    ∀ c ∈ (applyOp op s).customers, 0 ≤ c.points := by
  cases op with
  | purchase rawName rawMobile amount rawDate today uuidHex =>
    have ha : (0 : ℚ) ≤ amount := hok
    have hpfa : 0 ≤ points_from_amount amount :=
      Int.floor_nonneg.mpr (div_nonneg ha (by norm_num))
    cases hU : upsertPurchase (pyStrip rawName) (pyStrip rawMobile) amount
      (effectiveDate rawDate today) s.customers with
    | none =>
      have hcs : (applyOp
          (Op.purchase rawName rawMobile amount rawDate today uuidHex)
          s).customers = s.customers ++
            [⟨next_customer_id s.customers, pyStrip rawName,
              pyStrip rawMobile, pyInt amount, points_from_amount amount, 0,
              effectiveDate rawDate today⟩] := by
        simp only [applyOp, recordPurchase, hU]
      rw [hcs]
      intro c hc
      rcases List.mem_append.mp hc with hc | hc
      · exact h c hc
      · rcases List.mem_singleton.mp hc with rfl
        exact hpfa
    | some r =>
      obtain ⟨df', cid⟩ := r
      have hcs : (applyOp
          (Op.purchase rawName rawMobile amount rawDate today uuidHex)
          s).customers = df' := by
        simp only [applyOp, recordPurchase, hU]
      rw [hcs]
      exact upsertPurchase_points _ _ _ _ hpfa hU h
  | redeem cid rp => exact redeemList_points cid rp _ h
  | update cid rawName rawMobile =>
    show ∀ c ∈ update_customer cid rawName rawMobile s.customers, 0 ≤ c.points
    simp only [update_customer]
    split
    · exact h
    · split
      · exact h
      · exact setContact_points _ _ _ _ h
  | delete cid =>
    show ∀ c ∈ delete_customer cid s.customers, 0 ≤ c.points
    simp only [delete_customer]
    split
    · intro c hc
      exact h c (List.mem_of_mem_filter hc)
    · exact h

theorem run_points :
    ∀ (ops : List Op) (s : State), (∀ op ∈ ops, amountOk op) →
      (∀ c ∈ s.customers, 0 ≤ c.points) →
      ∀ c ∈ (run ops s).customers, 0 ≤ c.points := by
  intro ops
  induction ops with
  | nil => exact fun s _ h => h
  | cons op ops ih =>
    intro s hok h
    exact ih (applyOp op s) (fun o ho => hok o (by simp [ho]))
      (applyOp_points op s (hok op (by simp)) h)

/-- C3: along every sequence of operations whose purchases carry a
non-negative amount and from a table whose Points are all non-negative,
every customer's Points stay non-negative after the run (the operation
list being universally quantified, instantiating it with each prefix
gives the invariant after every intermediate operation); and every
operation of the sequence acts on the table it receives by one of the
three `StepFrame` shapes — an in-place rewrite keeping every
`Customer_ID` and never lowering a `Redeemed_Points`, the appending of
one new customer with `Redeemed_Points = 0`, or the removal of the rows
of one `Customer_ID` — so no operation ever changes an existing
customer's `Customer_ID`, and every row present after a step descends
from a row present before it with the same id and a `Redeemed_Points` at
least as large, unless it is a fresh row whose `Redeemed_Points` is
zero. -/
theorem C3_invariants_spec :
    ∀ (ops : List Op) (s : State),
      (∀ op ∈ ops, amountOk op) →
      ((∀ c ∈ s.customers, 0 ≤ c.points) →
        ∀ c ∈ (run ops s).customers, 0 ≤ c.points) ∧
      (∀ (pre : List Op) (op : Op) (suf : List Op),
        ops = pre ++ op :: suf →
        StepFrame (run pre s).customers
          (applyOp op (run pre s)).customers ∧
        ∀ c' ∈ (applyOp op (run pre s)).customers,
          (∃ c ∈ (run pre s).customers, c'.customerId = c.customerId ∧
            c.redeemedPoints ≤ c'.redeemedPoints) ∨
          c'.redeemedPoints = 0) := by
  intro ops s hok
  refine ⟨run_points ops s hok, ?_⟩
  intro pre op suf _
  exact ⟨applyOp_stepFrame op (run pre s),
    stepFrame_descent (applyOp_stepFrame op (run pre s))⟩

/-- Witness for C3 at a concrete run: a purchase of 95 (non-negative),
then a redemption and a deletion, starting from the empty store with
every Points value trivially non-negative. -/
theorem C3_invariants_spec_witness :
    ((∀ c ∈ (⟨[], []⟩ : State).customers, 0 ≤ c.points) →
      ∀ c ∈ (run
        [Op.purchase "Ann" "0501" 95 "2024-05-01" "2024-05-01" "u",
         Op.redeem "CUST0001" 100, Op.delete "CUST0001"]
        ⟨[], []⟩).customers, 0 ≤ c.points) ∧
    (∀ (pre : List Op) (op : Op) (suf : List Op),
      [Op.purchase "Ann" "0501" 95 "2024-05-01" "2024-05-01" "u",
       Op.redeem "CUST0001" 100, Op.delete "CUST0001"] = pre ++ op :: suf →
      StepFrame (run pre (⟨[], []⟩ : State)).customers
        (applyOp op (run pre (⟨[], []⟩ : State))).customers ∧
      ∀ c' ∈ (applyOp op (run pre (⟨[], []⟩ : State))).customers,
        (∃ c ∈ (run pre (⟨[], []⟩ : State)).customers,
          c'.customerId = c.customerId ∧
          c.redeemedPoints ≤ c'.redeemedPoints) ∨
        c'.redeemedPoints = 0) := by
  refine C3_invariants_spec _ _ ?_
  intro op hop
  rcases List.mem_cons.mp hop with rfl | hop
  · show (0 : ℚ) ≤ 95
    norm_num
  · rcases List.mem_cons.mp hop with rfl | hop
    · trivial
    · rcases List.mem_cons.mp hop with rfl | hop
      · trivial
      · simp at hop

end Loyalty
